import Mathlib

/-!
Verification of the FM derivation core of the Oasis exposures manager
(`oasislmf/exposures/manager.py`): item materialization, level expansion,
term resolution, calc-rule selection and FM file generation entry points.

Numeric column values are modelled as rationals; tabular rows are records;
Python exceptions (OasisException, KeyError, NameError) are modelled with
`Except`.
-/

deriving instance DecidableEq for Except

/-- ASCII lower-casing of a column or profile element name, the model of
the `.lower()` calls in the source. -/
def String.lower (s : String) : String := ⟨s.data.map Char.toLower⟩

namespace Oasis

/-- A canonical exposure row: the `row_id` key plus named numeric columns
(column names are lower-cased at load time). -/
structure CanexpRow where
  row_id : Int
  cols : List (String × ℚ)
deriving DecidableEq

/-- Column access on a canonical row; `none` models a missing column. -/
def CanexpRow.getCol (r : CanexpRow) (c : String) : Option ℚ :=
  r.cols.lookup c

/-- A keys-lookup row (after the CoverageID → coveragetype rename and
lower-casing of column names). -/
structure KeysRow where
  locid : Int
  coveragetype : Int
  areaperilid : Int
  vulnerabilityid : Int
deriving DecidableEq

/-- A profile entry, restricted to the attributes read by the materializer
and the term resolver: the source column name, the coverage-type id (for
TIV entries) and the optional deductible type classifier. -/
structure ProfileEntry where
  profileElementName : String
  coverageTypeID : Int := 0
  deductibleType : Option String := none
deriving DecidableEq

/-- An item emitted by the materializer. -/
structure Item where
  item_id : Nat
  canloc_id : Int
  coverage_id : Nat
  tiv : ℚ
  areaperil_id : Int
  vulnerability_id : Int
  group_id : Nat
  summary_id : Nat
  summaryset_id : Nat
deriving DecidableEq

/-- Errors raised by `load_exposure_master_data_frame`:
`missingCanexp k` models the OasisException raised when no canonical row
matches the keys row `k`; `missingTivColumn` models the KeyError raised
when a TIV profile column is absent from the canonical row. -/
inductive MatError where
  | missingCanexp (k : KeysRow)
  | missingTivColumn (col : String)
deriving DecidableEq

/-- First canonical row whose `row_id` equals `locid`
(`canexp_df[canexp_df[..] == locid].iloc[0]`). -/
def findCanexp (canexp : List CanexpRow) (locid : Int) : Option CanexpRow :=
  canexp.find? (fun r => r.row_id == locid)

/-- The record appended for one emitted item: coverage id and group id both
equal the item id, summary ids are 1. -/
def mkItem (id : Nat) (can : CanexpRow) (k : KeysRow) (tiv : ℚ) : Item :=
  ⟨id, can.row_id, id, tiv, k.areaperilid, k.vulnerabilityid, id, 1, 1⟩

/-- The inner loop over the TIV profile entries matching the keys row's
coverage type: read the TIV column, emit an item when the value is
strictly positive, incrementing the monotonic item counter. -/
def processTivFields (can : CanexpRow) (k : KeysRow) :
    List ProfileEntry → Nat → Except MatError (Nat × List Item)
  | [], n => .ok (n, [])
  | f :: fs, n =>
    match can.getCol f.profileElementName.lower with
    | none => .error (.missingTivColumn f.profileElementName.lower)
    | some tiv =>
      if 0 < tiv then
        match processTivFields can k fs (n + 1) with
        | .error e => .error e
        | .ok (m, items) => .ok (m, mkItem (n + 1) can k tiv :: items)
      else
        processTivFields can k fs n

/-- The outer loop of the materializer over the keys-lookup rows, threading
the item counter. -/
def materialize (canexp : List CanexpRow) (tf : List ProfileEntry) :
    List KeysRow → Nat → Except MatError (Nat × List Item)
  | [], n => .ok (n, [])
  | k :: ks, n =>
    match findCanexp canexp k.locid with
    | none => .error (.missingCanexp k)
    | some can =>
      match processTivFields can k
          (tf.filter (fun f => f.coverageTypeID == k.coveragetype)) n with
      | .error e => .error e
      | .ok (m, items) =>
        match materialize canexp tf ks m with
        | .error e => .error e
        | .ok (m2, rest) => .ok (m2, items ++ rest)

/-- The materializer `load_exposure_master_data_frame`: canonical rows, the
profile's TIV entries, keys rows in table order; produces the item
table. -/
def load_exposure_master_data_frame (canexp : List CanexpRow)
    (tf : List ProfileEntry) (keys : List KeysRow) :
    Except MatError (List Item) :=
  (materialize canexp tf keys 0).map Prod.snd

/-- The first keys row with no matching canonical row, if any. -/
def firstUnmatched (canexp : List CanexpRow) (keys : List KeysRow) :
    Option KeysRow :=
  keys.find? (fun k => (findCanexp canexp k.locid).isNone)

/-- A term group at one level: the tiv / limit / deductible entries keyed by
lower-cased FM term type (only these three types survive the filter in
`load_fm_master_data_frame`). -/
structure TermGroup where
  tiv : Option ProfileEntry := none
  limit : Option ProfileEntry := none
  deductible : Option ProfileEntry := none
deriving DecidableEq

/-- The `grouped_fm_term_fields` structure: the coverage-level groups in
iteration order, and for each level the group with FMTermGroupID 1
(`none` models the KeyError raised when key 1 is absent). -/
structure GroupedTermFields where
  covGroups : List (Int × TermGroup)
  levelGroup1 : String → Option TermGroup

/-- One FM term row; fields that the source initialises to `None` and may
never set are `Option`-valued. -/
structure FmRow where
  itemid : Nat
  canlocid : Int
  levelid : Option Int := none
  layerid : Option Int := none
  aggid : Option Int := none
  policytcid : Option Int := none
  deductible : Option ℚ := none
  limit : Option ℚ := none
  share : Option ℚ := none
  deductibletype : Option String := none
  calcrule : Option Nat := none
  tiv : ℚ
  fm_level : String
deriving DecidableEq

/-- The row produced by the level expander for one (level, item) pair:
item id, location back-reference and TIV are copied, every other field is
unset. -/
def mkFmRow (fm_level : String) (it : Item) : FmRow :=
  { itemid := it.item_id, canlocid := it.canloc_id, tiv := it.tiv,
    fm_level := fm_level }

/-- The `fm_levels` sequence: the level names sorted by ascending FM level
order (a stable sort, as in the source). -/
def fmLevelsSorted (levels : List (String × Int)) : List String :=
  (levels.mergeSort (fun a b => decide (a.2 ≤ b.2))).map Prod.fst

/-- The level expander: the product of (ordered levels) × (items) with the
level as the outer loop. -/
def presetData (fmLevels : List String) (items : List Item) : List FmRow :=
  fmLevels.flatMap (fun lv => items.map (mkFmRow lv))

/-- Errors arising inside the FM term-resolution loop: `keyError` models a
Python KeyError (missing dict key or data-frame column on an unguarded
access), `nameError` models the read of a local variable before any
assignment, `missingCanexp` a canonical-row lookup miss. -/
inductive FmError where
  | keyError (s : String)
  | nameError (s : String)
  | missingCanexp (canlocid : Int)
deriving DecidableEq

/-- The ≤ 1 fraction-of-TIV versus > 1 absolute-amount rule applied to a
profile-declared deductible or limit column value. -/
def resolveTerm (v tiv : ℚ) : ℚ :=
  if 1 < v then v else v * tiv

/-- The calc-rule decision chain, exactly the elif chain of the source,
keyed on the raw limit value, the share and the deductible type code. -/
def calcRuleSelect (limit_val share : ℚ) (ded_type : String) : Nat :=
  if limit_val = 0 ∧ share = 0 ∧ ded_type = "B" then 12
  else if limit_val = 0 ∧ 0 < share ∧ ded_type = "B" then 15
  else if 0 < limit_val ∧ share = 0 ∧ ded_type = "B" then 1
  else if ded_type = "MI" then 11
  else if ded_type = "MA" then 10
  else 2

/-- The coverage-level scan over the declared term groups: skip a group
whose TIV column is absent or differs from the row's TIV; on the first
match read the limit and deductible columns (unguarded: a missing entry or
column raises) and return the raw limit value, raw deductible value and
the deductible type (defaulting to B). -/
def coverageScan (can : CanexpRow) (rowTiv : ℚ) :
    List (Int × TermGroup) → Except FmError (Option (ℚ × ℚ × String))
  | [] => .ok none
  | (_, g) :: rest =>
    match g.tiv with
    | none => .error (.keyError "tiv")
    | some te =>
      match can.getCol te.profileElementName.lower with
      | none => coverageScan can rowTiv rest
      | some v =>
        if v = rowTiv then
          match g.limit with
          | none => .error (.keyError "limit")
          | some le =>
            match can.getCol le.profileElementName.lower with
            | none => .error (.keyError le.profileElementName.lower)
            | some lv =>
              match g.deductible with
              | none => .error (.keyError "deductible")
              | some de =>
                match can.getCol de.profileElementName.lower with
                | none => .error (.keyError de.profileElementName.lower)
                | some dv => .ok (some (lv, dv, de.deductibleType.getD "B"))
        else
          coverageScan can rowTiv rest

/-- The deductible type used for every non-coverage row: read from the
deductible entry of coverage-level group 1 (both accesses unguarded in the
source), defaulting to B only when that entry has no DeductibleType. -/
def nonCovDedType (g : GroupedTermFields) : Except FmError String :=
  match g.covGroups.lookup 1 with
  | none => .error (.keyError "coverage group 1")
  | some cg =>
    match cg.deductible with
    | none => .error (.keyError "deductible")
    | some de => .ok (de.deductibleType.getD "B")

/-- The raw value of a non-coverage limit or deductible term: 0 when the
level declares no such entry or the declared column is absent from the
canonical row, the column value otherwise. -/
def nonCovTermVal (can : CanexpRow) (e : Option ProfileEntry) : ℚ :=
  match e with
  | none => 0
  | some en => (can.getCol en.profileElementName.lower).getD 0

/-- Processing of one FM term row: term resolution followed by calc-rule
selection.  The state `st` carries the Python locals `limit_val` and
`ded_type` across loop iterations: an unmatched coverage row leaves them
unchanged and the calc rule is then computed from the stale values, or
raises a NameError when no earlier iteration assigned them. -/
def processFmRow (canexp : List CanexpRow) (g : GroupedTermFields)
    (st : Option (ℚ × String)) (row : FmRow) :
    Except FmError (Option (ℚ × String) × FmRow) :=
  match findCanexp canexp row.canlocid with
  | none => .error (.missingCanexp row.canlocid)
  | some can =>
    if row.fm_level = "coverage" then
      match coverageScan can row.tiv g.covGroups with
      | .error e => .error e
      | .ok (some (lv, dv, dt)) =>
        .ok (some (lv, dt),
          { row with
            limit := some (resolveTerm lv row.tiv),
            deductible := some (resolveTerm dv row.tiv),
            deductibletype := some dt,
            share := some 0,
            calcrule := some (calcRuleSelect lv 0 dt) })
      | .ok none =>
        match st with
        | none => .error (.nameError "limit_val")
        | some (lv, dt) =>
          .ok (some (lv, dt),
            { row with
              share := some 0,
              calcrule := some (calcRuleSelect lv 0 dt) })
    else
      match g.levelGroup1 row.fm_level with
      | none => .error (.keyError "group 1")
      | some g1 =>
        match nonCovDedType g with
        | .error e => .error e
        | .ok dt =>
          .ok (some (nonCovTermVal can g1.limit, dt),
            { row with
              limit := some (resolveTerm (nonCovTermVal can g1.limit) row.tiv),
              deductible := some (resolveTerm (nonCovTermVal can g1.deductible) row.tiv),
              deductibletype := some dt,
              share := some 0,
              calcrule := some (calcRuleSelect (nonCovTermVal can g1.limit) 0 dt) })

/-- The FM loop over all preset rows, threading the carried locals. -/
def processFmRows (canexp : List CanexpRow) (g : GroupedTermFields) :
    Option (ℚ × String) → List FmRow → Except FmError (List FmRow)
  | _, [] => .ok []
  | st, r :: rs =>
    match processFmRow canexp g st r with
    | .error e => .error e
    | .ok (st2, r2) =>
      match processFmRows canexp g st2 rs with
      | .error e => .error e
      | .ok rest => .ok (r2 :: rest)

/-- The FM term table derivation: level expansion over the sorted levels
followed by term resolution and calc-rule selection on every row, starting
with no locals assigned. -/
def load_fm_master_data_frame (canexp : List CanexpRow)
    (levels : List (String × Int)) (g : GroupedTermFields)
    (items : List Item) : Except FmError (List FmRow) :=
  processFmRows canexp g none (presetData (fmLevelsSorted levels) items)

/-- The method names defined on the OasisExposuresManager class in the
source file. -/
def oasisExposuresManagerMethods : List String :=
  ["add_model", "add_models", "delete_model", "delete_models",
   "keys_lookup_factory", "models", "transform_source_to_canonical",
   "transform_canonical_to_model", "load_canonical_exposures_profile",
   "load_canonical_account_profile", "get_keys",
   "load_exposure_master_data_frame", "load_fm_master_data_frame",
   "generate_items_file", "generate_coverages_file",
   "generate_gulsummaryxref_file", "generate_fm_policytc_file",
   "generate_fm_profile_file", "generate_fm_programme_file",
   "generate_fm_xref_file", "generate_fmsummaryxref_file",
   "generate_gul_files", "generate_fm_files", "generate_oasis_files",
   "clear_oasis_files_pipeline", "start_oasis_files_pipeline", "create"]

/-- Python attribute resolution on the manager instance. -/
def lookupMethod (name : String) : Except String String :=
  if name ∈ oasisExposuresManagerMethods then .ok name
  else .error "AttributeError"

/-- The first step of `generate_fm_files`: resolve the data-frame loader it
calls, which is spelled `load_fm_exposure_master_data_frame` in the
source. -/
def generate_fm_files_loader : Except String String :=
  lookupMethod "load_fm_exposure_master_data_frame"

/-- The files written by the body of `generate_fm_policytc_file` (the body
is a bare pass statement). -/
def generate_fm_policytc_file_writes : List String := []

/-- The files written by the body of `generate_fm_profile_file`. -/
def generate_fm_profile_file_writes : List String := []

/-- The files written by the body of `generate_fm_programme_file`. -/
def generate_fm_programme_file_writes : List String := []

/-- The files written by the body of `generate_fm_xref_file`. -/
def generate_fm_xref_file_writes : List String := []

/-- The files written by the body of `generate_fmsummaryxref_file`. -/
def generate_fmsummaryxref_file_writes : List String := []

/-! Concrete example inputs used by counterexamples and witnesses. -/

/-- A canonical row with one coverage TIV column worth 1000. -/
def w3can : CanexpRow := ⟨1, [("wscv1val", 1000)]⟩

/-- The canonical exposure table of the materializer examples. -/
def w3canexp : List CanexpRow := [w3can]

/-- One TIV profile entry for coverage type 1 on column WSCV1VAL. -/
def w3f : ProfileEntry :=
  { profileElementName := "WSCV1VAL", coverageTypeID := 1 }

/-- The TIV profile entries of the materializer examples. -/
def w3tf : List ProfileEntry := [w3f]

/-- One successful keys-lookup row for location 1, coverage type 1. -/
def w3key : KeysRow := ⟨1, 1, 50, 60⟩

/-- A canonical row whose coverage TIV column is 0. -/
def w4can : CanexpRow := ⟨1, [("wscv1val", 0)]⟩

/-- The canonical exposure table of the zero-TIV example. -/
def w4canexp : List CanexpRow := [w4can]

/-- The level declarations of the level-expander example. -/
def w5levels : List (String × Int) := [("coverage", 1)]

/-- The single materialized item of the level-expander example. -/
def w5item : Item := ⟨1, 1, 1, 1000, 50, 60, 1, 1, 1⟩

/-- A canonical table whose only row must not match keys location 2. -/
def w9canexp : List CanexpRow := [⟨1, [("c", 5)]⟩]

/-- The TIV profile entries of the missing-canonical-record example. -/
def w9tf : List ProfileEntry :=
  [{ profileElementName := "C", coverageTypeID := 1 }]

/-- A keys-lookup row whose location id 2 has no canonical row. -/
def w9key : KeysRow := ⟨2, 1, 0, 0⟩

/-- A canonical row carrying both the coverage-level and the policy-level
term columns. -/
def c6canexp : List CanexpRow :=
  [⟨7, [("covtiv", 1000), ("covlim", 2000), ("covded", 100),
        ("pollim", 3000), ("polded", 200)]⟩]

/-- Grouped term fields whose coverage group 1 deductible entry carries
type MI while the policy-level group 1 deductible entry carries type
MA. -/
def c6grouped : GroupedTermFields where
  covGroups :=
    [(1, { tiv := some { profileElementName := "covtiv" },
           limit := some { profileElementName := "covlim" },
           deductible := some { profileElementName := "covded",
                                deductibleType := some "MI" } })]
  levelGroup1 := fun lv =>
    if lv = "policy" then
      some { limit := some { profileElementName := "pollim" },
             deductible := some { profileElementName := "polded",
                                  deductibleType := some "MA" } }
    else none

/-- A policy-level FM term row for the canonical row 7. -/
def c6row : FmRow :=
  { itemid := 1, canlocid := 7, tiv := 1000, fm_level := "policy" }

/-- The deductible type declared by the policy-level term group of
`c6grouped`, with the B default applied. -/
def c6policyDedType : Option String :=
  (c6grouped.levelGroup1 "policy").bind
    (fun g => g.deductible.map (fun e => e.deductibleType.getD "B"))

/-- A canonical row that matches the coverage TIV column but lacks the
declared coverage limit column. -/
def c7canexp : List CanexpRow := [⟨8, [("covtiv", 1000), ("covded", 100)]⟩]

/-- Grouped term fields whose coverage group declares limit column covlim,
absent from the canonical row 8. -/
def c7grouped : GroupedTermFields where
  covGroups :=
    [(1, { tiv := some { profileElementName := "covtiv" },
           limit := some { profileElementName := "covlim" },
           deductible := some { profileElementName := "covded" } })]
  levelGroup1 := fun _ => none

/-- A coverage-level FM term row for the canonical row 8. -/
def c7row : FmRow :=
  { itemid := 1, canlocid := 8, tiv := 1000, fm_level := "coverage" }

/-- A canonical row without the policy-level term columns. -/
def w7canexp : List CanexpRow := [⟨9, []⟩]

/-- Grouped term fields declaring policy-level limit and deductible columns
that are absent from canonical row 9. -/
def w7grouped : GroupedTermFields where
  covGroups :=
    [(1, { deductible := some { profileElementName := "covded",
                                deductibleType := some "B" } })]
  levelGroup1 := fun lv =>
    if lv = "policy" then
      some { limit := some { profileElementName := "pollim" },
             deductible := some { profileElementName := "polded" } }
    else none

/-- A policy-level FM term row for the canonical row 9. -/
def w7row : FmRow :=
  { itemid := 1, canlocid := 9, tiv := 1000, fm_level := "policy" }

/-- A canonical table whose coverage TIV column value 500 differs from the
materialized TIV 1000 of the row below. -/
def c8canexp : List CanexpRow := [⟨9, [("covtiv", 500)]⟩]

/-- Grouped term fields with a single complete coverage group. -/
def c8grouped : GroupedTermFields where
  covGroups :=
    [(1, { tiv := some { profileElementName := "covtiv" },
           limit := some { profileElementName := "covlim" },
           deductible := some { profileElementName := "covded" } })]
  levelGroup1 := fun _ => none

/-- A coverage-level FM term row whose TIV 1000 matches no coverage
group. -/
def c8row : FmRow :=
  { itemid := 1, canlocid := 9, tiv := 1000, fm_level := "coverage" }

/-! Theorems. -/

/-- Concatenation of two adjacent unit-step ranges. -/
theorem range_shift (s a b : ℕ) :
    List.range' s a ++ List.range' (s + a) b = List.range' s (a + b) := by
  have h := List.range'_append s a b 1
  rw [Nat.one_mul] at h
  rw [Nat.add_comm b a] at h
  exact h

/-- Invariant of the inner TIV loop: on success the counter advances by the
number of emitted items, item ids continue the counter contiguously, and
coverage and group ids equal the item id. -/
theorem processTivFields_ok (can : CanexpRow) (k : KeysRow) :
    ∀ (fs : List ProfileEntry) (n m : ℕ) (out : List Item),
      processTivFields can k fs n = .ok (m, out) →
      m = n + out.length ∧
      out.map Item.item_id = List.range' (n + 1) out.length ∧
      ∀ it ∈ out, it.coverage_id = it.item_id ∧ it.group_id = it.item_id := by
  intro fs
  induction fs with
  | nil =>
    intro n m out h
    simp only [processTivFields] at h
    cases h
    simp [List.range']
  | cons f fs ih =>
    intro n m out h
    simp only [processTivFields] at h
    split at h
    · cases h
    · split at h
      · split at h
        · cases h
        · rename_i m1 items heq
          simp only [Except.ok.injEq, Prod.mk.injEq] at h
          obtain ⟨rfl, rfl⟩ := h
          obtain ⟨h1, h2, h3⟩ := ih (n + 1) m1 items heq
          refine ⟨by simp only [List.length_cons]; omega, ?_, ?_⟩
          · simp only [List.map_cons, List.length_cons, mkItem]
            rw [List.range'_succ]
            rw [h2]
          · intro it hit
            rcases List.mem_cons.mp hit with rfl | hit2
            · exact ⟨rfl, rfl⟩
            · exact h3 it hit2
      · exact ih n m out h

/-- Invariant of the materializer loop over keys rows. -/
theorem materialize_ok (canexp : List CanexpRow) (tf : List ProfileEntry) :
    ∀ (ks : List KeysRow) (n m : ℕ) (out : List Item),
      materialize canexp tf ks n = .ok (m, out) →
      m = n + out.length ∧
      out.map Item.item_id = List.range' (n + 1) out.length ∧
      ∀ it ∈ out, it.coverage_id = it.item_id ∧ it.group_id = it.item_id := by
  intro ks
  induction ks with
  | nil =>
    intro n m out h
    simp only [materialize] at h
    cases h
    simp [List.range']
  | cons k ks ih =>
    intro n m out h
    simp only [materialize] at h
    split at h
    · cases h
    · split at h
      · cases h
      · split at h
        · cases h
        · rename_i kan hkan hx1 m1 items heq hx2 m2 rest hrec
          simp only [Except.ok.injEq, Prod.mk.injEq] at h
          obtain ⟨rfl, rfl⟩ := h
          obtain ⟨h1, h2, h3⟩ := processTivFields_ok kan k _ n m1 items heq
          obtain ⟨g1, g2, g3⟩ := ih m1 m2 rest hrec
          refine ⟨by simp only [List.length_append]; omega, ?_, ?_⟩
          · rw [List.map_append, h2, g2, List.length_append]
            have hx : m1 + 1 = (n + 1) + items.length := by omega
            rw [hx]
            exact range_shift (n + 1) items.length rest.length
          · intro it hit
            rcases List.mem_append.mp hit with hit2 | hit2
            · exact h3 it hit2
            · exact g3 it hit2

/-- C3: whenever the materializer succeeds, the emitted item ids form the
contiguous 1-based sequence 1, 2, ..., n in emission (keys-row) order,
with no gaps or repeats, and every item has coverage id and group id equal
to its item id. -/
theorem item_ids_contiguous (canexp : List CanexpRow) (tf : List ProfileEntry)
    (keys : List KeysRow) (items : List Item)
    (h : load_exposure_master_data_frame canexp tf keys = .ok items) :
    items.map Item.item_id = List.range' 1 items.length ∧
    ∀ it ∈ items, it.coverage_id = it.item_id ∧ it.group_id = it.item_id := by
  unfold load_exposure_master_data_frame at h
  cases heq : materialize canexp tf keys 0 with
  | error e => rw [heq] at h; cases h
  | ok p =>
    rw [heq] at h
    obtain ⟨m, out⟩ := p
    simp only [Except.map, Except.ok.injEq] at h
    subst h
    obtain ⟨-, h2, h3⟩ := materialize_ok canexp tf keys 0 m out heq
    exact ⟨h2, h3⟩

/-- C3 witness: one keys row over one canonical row with TIV 1000 emits the
single item 1 with coverage id and group id 1. -/
theorem item_ids_contiguous_witness :
    ([mkItem 1 w3can w3key 1000].map Item.item_id =
      List.range' 1 [mkItem 1 w3can w3key 1000].length) ∧
    ∀ it ∈ [mkItem 1 w3can w3key 1000],
      it.coverage_id = it.item_id ∧ it.group_id = it.item_id :=
  item_ids_contiguous w3canexp w3tf [w3key] [mkItem 1 w3can w3key 1000]
    (by decide)

/-- C4: for a keys row whose matching canonical row and single matching
TIV profile entry yield TIV value v, the materializer emits no item when
v is at most 0 and exactly one item carrying v when v is positive. -/
theorem item_emitted_iff_tiv_positive (canexp : List CanexpRow)
    (tf : List ProfileEntry) (k : KeysRow) (can : CanexpRow)
    (f : ProfileEntry) (v : ℚ)
    (h1 : findCanexp canexp k.locid = some can)
    (h2 : tf.filter (fun x => x.coverageTypeID == k.coveragetype) = [f])
    (h3 : can.getCol f.profileElementName.lower = some v) :
    (v ≤ 0 → load_exposure_master_data_frame canexp tf [k] = .ok []) ∧
    (0 < v → load_exposure_master_data_frame canexp tf [k] = .ok [mkItem 1 can k v]) := by
  constructor
  · intro hv
    unfold load_exposure_master_data_frame
    simp only [materialize, h1, h2, processTivFields, h3]
    rw [if_neg (not_lt.mpr hv)]
    simp [processTivFields, materialize, Except.map]
  · intro hv
    unfold load_exposure_master_data_frame
    simp only [materialize, h1, h2, processTivFields, h3]
    rw [if_pos hv]
    simp [processTivFields, materialize, Except.map]

/-- C4 witness: with the TIV column value 0 no item is emitted. -/
theorem item_emitted_iff_tiv_positive_witness :
    load_exposure_master_data_frame w4canexp w3tf [w3key] = .ok [] :=
  (item_emitted_iff_tiv_positive w4canexp w3tf w3key w4can w3f 0
    (by decide) (by decide) (by decide)).1 le_rfl

/-- The TIV loop cannot fail when every referenced column is present. -/
theorem processTivFields_total (can : CanexpRow) (k : KeysRow) :
    ∀ (fs : List ProfileEntry) (n : ℕ),
      (∀ f ∈ fs, (can.getCol f.profileElementName.lower).isSome = true) →
      ∃ r, processTivFields can k fs n = .ok r := by
  intro fs
  induction fs with
  | nil => exact fun n _ => ⟨(n, []), rfl⟩
  | cons f fs ih =>
    intro n hall
    obtain ⟨v, hv⟩ := Option.isSome_iff_exists.mp (hall f (by simp))
    have hrest : ∀ g ∈ fs, (can.getCol g.profileElementName.lower).isSome = true :=
      fun g hg => hall g (by simp [hg])
    by_cases h0 : 0 < v
    · obtain ⟨⟨m, items⟩, hr⟩ := ih (n + 1) hrest
      refine ⟨(m, mkItem (n + 1) can k v :: items), ?_⟩
      simp only [processTivFields, hv]
      rw [if_pos h0, hr]
    · obtain ⟨r, hr⟩ := ih n hrest
      refine ⟨r, ?_⟩
      simp only [processTivFields, hv]
      rw [if_neg h0]
      exact hr

/-- When every TIV column is present on every canonical row, the
materializer aborts at the first unmatched keys row, reporting that row. -/
theorem materialize_first_unmatched (canexp : List CanexpRow)
    (tf : List ProfileEntry)
    (hcols : ∀ can ∈ canexp, ∀ f ∈ tf,
      (can.getCol f.profileElementName.lower).isSome = true) :
    ∀ (keys : List KeysRow) (n : ℕ) (koff : KeysRow),
      firstUnmatched canexp keys = some koff →
      materialize canexp tf keys n = .error (.missingCanexp koff) := by
  intro keys
  induction keys with
  | nil => intro n koff h; simp [firstUnmatched] at h
  | cons k ks ih =>
    intro n koff h
    unfold firstUnmatched at h
    rw [List.find?_cons] at h
    cases hc : findCanexp canexp k.locid with
    | none =>
      rw [hc] at h
      simp only [Option.isNone_none] at h
      cases h
      simp only [materialize, hc]
    | some can =>
      rw [hc] at h
      simp only [Option.isNone_some] at h
      have hmem : can ∈ canexp := List.mem_of_find?_eq_some hc
      have hfs : ∀ f ∈ tf.filter (fun f => f.coverageTypeID == k.coveragetype),
          (can.getCol f.profileElementName.lower).isSome = true :=
        fun f hf => hcols can hmem f (List.mem_of_mem_filter hf)
      obtain ⟨⟨m, items⟩, hok⟩ := processTivFields_total can k _ n hfs
      have hrec := ih m koff h
      simp only [materialize, hc, hok, hrec]

/-- C9: when a keys-lookup row matches no canonical exposure row, the run
aborts with the missing-canonical-record error identifying the first such
offending keys row, and no item table is produced (the column-presence
hypothesis rules out the unrelated missing-TIV-column abort on an earlier
row). -/
theorem missing_canonical_aborts (canexp : List CanexpRow)
    (tf : List ProfileEntry) (keys : List KeysRow) (koff : KeysRow)
    (hcols : ∀ can ∈ canexp, ∀ f ∈ tf,
      (can.getCol f.profileElementName.lower).isSome = true)
    (hoff : firstUnmatched canexp keys = some koff) :
    load_exposure_master_data_frame canexp tf keys =
      .error (.missingCanexp koff) := by
  unfold load_exposure_master_data_frame
  rw [materialize_first_unmatched canexp tf hcols keys 0 koff hoff]
  rfl

/-- C9 witness: a keys row for location 2 over a canonical table holding
only row 1 aborts the run reporting that keys row. -/
theorem missing_canonical_aborts_witness :
    load_exposure_master_data_frame w9canexp w9tf [w9key] =
      .error (.missingCanexp w9key) :=
  missing_canonical_aborts w9canexp w9tf [w9key] w9key (by decide) (by decide)

/-- C1: for every FM-term row processed by the Calc-Rule Selector the
selected calc-rule id follows the fixed priority-ordered decision table on
(limit, share, deductible-type code): limit 0, share 0, type B gives 12;
limit 0, positive share, type B gives 15; positive limit, share 0, type B
gives 1; then type MI gives 11 regardless of limit and share; then type MA
gives 10; any remaining combination gives 2.  Every successfully processed
row carries exactly the rule selected from its resolved limit, share and
deductible type. -/
theorem calc_rule_selector_decision_table :
    (∀ l s : ℚ, ∀ t : String,
      (l = 0 ∧ s = 0 ∧ t = "B" → calcRuleSelect l s t = 12) ∧
      (l = 0 ∧ 0 < s ∧ t = "B" → calcRuleSelect l s t = 15) ∧
      (0 < l ∧ s = 0 ∧ t = "B" → calcRuleSelect l s t = 1) ∧
      (t = "MI" → calcRuleSelect l s t = 11) ∧
      (t = "MA" → calcRuleSelect l s t = 10) ∧
      (¬(l = 0 ∧ s = 0 ∧ t = "B") → ¬(l = 0 ∧ 0 < s ∧ t = "B") →
        ¬(0 < l ∧ s = 0 ∧ t = "B") → t ≠ "MI" → t ≠ "MA" →
        calcRuleSelect l s t = 2)) ∧
    (∀ canexp g st row out, processFmRow canexp g st row = .ok out →
      ∃ lv dt, out.1 = some (lv, dt) ∧
        out.2.calcrule = some (calcRuleSelect lv 0 dt)) := by
  constructor
  · intro l s t
    refine ⟨?_, ?_, ?_, ?_, ?_, ?_⟩
    · rintro ⟨rfl, rfl, rfl⟩; decide
    · rintro ⟨rfl, hs, rfl⟩
      unfold calcRuleSelect
      rw [if_neg (by rintro ⟨-, h, -⟩; exact hs.ne' h), if_pos ⟨rfl, hs, rfl⟩]
    · rintro ⟨hl, rfl, rfl⟩
      unfold calcRuleSelect
      rw [if_neg (by rintro ⟨h, -, -⟩; exact hl.ne' h),
        if_neg (by rintro ⟨h, -, -⟩; exact hl.ne' h), if_pos ⟨hl, rfl, rfl⟩]
    · rintro rfl
      unfold calcRuleSelect
      rw [if_neg (by rintro ⟨-, -, h⟩; exact absurd h (by decide)),
        if_neg (by rintro ⟨-, -, h⟩; exact absurd h (by decide)),
        if_neg (by rintro ⟨-, -, h⟩; exact absurd h (by decide)),
        if_pos rfl]
    · rintro rfl
      unfold calcRuleSelect
      rw [if_neg (by rintro ⟨-, -, h⟩; exact absurd h (by decide)),
        if_neg (by rintro ⟨-, -, h⟩; exact absurd h (by decide)),
        if_neg (by rintro ⟨-, -, h⟩; exact absurd h (by decide)),
        if_neg (by intro h; exact absurd h (by decide)), if_pos rfl]
    · intro h1 h2 h3 h4 h5
      unfold calcRuleSelect
      rw [if_neg h1, if_neg h2, if_neg h3, if_neg h4, if_neg h5]
  · intro canexp g st row out h
    unfold processFmRow at h
    split at h
    · cases h
    · split at h
      · split at h
        · cases h
        · cases h; exact ⟨_, _, rfl, rfl⟩
        · split at h
          · cases h
          · cases h; exact ⟨_, _, rfl, rfl⟩
      · split at h
        · cases h
        · split at h
          · cases h
          · cases h; exact ⟨_, _, rfl, rfl⟩

/-- C1 witness: the selector at limit 0, share 0, type B yields rule 12. -/
theorem calc_rule_selector_decision_table_witness :
    calcRuleSelect 0 0 "B" = 12 :=
  (calc_rule_selector_decision_table.1 0 0 "B").1 ⟨rfl, rfl, rfl⟩

/-- C2: a deductible or limit column value at most 1 is scaled by the
row's TIV, a value above 1 is used unchanged; a limit value 0.5 with TIV
1000 resolves to 500 and a limit value 1500 with TIV 1000 stays 1500. -/
theorem term_fraction_vs_absolute (v tiv : ℚ) :
    (v ≤ 1 → resolveTerm v tiv = v * tiv) ∧
    (1 < v → resolveTerm v tiv = v) ∧
    resolveTerm 0.5 1000 = 500 ∧ resolveTerm 1500 1000 = 1500 := by
  refine ⟨fun h => ?_, fun h => ?_,
    by norm_num [resolveTerm], by norm_num [resolveTerm]⟩
  · unfold resolveTerm; rw [if_neg (not_lt.mpr h)]
  · unfold resolveTerm; rw [if_pos h]

/-- C2 witness: the fraction branch at value 0.5 and TIV 1000. -/
theorem term_fraction_vs_absolute_witness :
    resolveTerm 0.5 1000 = 0.5 * 1000 :=
  (term_fraction_vs_absolute 0.5 1000).1 (by norm_num)

/-- C6 amended: for every FM-term row at a level other than coverage, the
deductible-type code is resolved from the deductible entry of term-group 1
at the coverage level, defaulting to B when that entry carries no explicit
DeductibleType; the level's own deductible entry plays no part in it. -/
theorem nonCov_dedtype_resolution (canexp : List CanexpRow)
    (g : GroupedTermFields) (st : Option (ℚ × String)) (row : FmRow)
    (can : CanexpRow) (g1 cg : TermGroup) (de : ProfileEntry)
    (h1 : row.fm_level ≠ "coverage")
    (h2 : findCanexp canexp row.canlocid = some can)
    (h3 : g.levelGroup1 row.fm_level = some g1)
    (h4 : g.covGroups.lookup 1 = some cg)
    (h5 : cg.deductible = some de) :
    (processFmRow canexp g st row).map (fun o => o.2.deductibletype) =
      .ok (some (de.deductibleType.getD "B")) := by
  unfold processFmRow
  simp only [h2]
  rw [if_neg h1]
  simp only [h3, nonCovDedType, h4, h5]
  rfl

/-- C6 amended witness: at the concrete policy-level row the resolved
deductible type is the coverage group 1 type MI. -/
theorem nonCov_dedtype_resolution_witness :
    (processFmRow c6canexp c6grouped none c6row).map
      (fun o => o.2.deductibletype) = .ok (some "MI") :=
  nonCov_dedtype_resolution c6canexp c6grouped none c6row
    ⟨7, [("covtiv", 1000), ("covlim", 2000), ("covded", 100),
         ("pollim", 3000), ("polded", 200)]⟩
    { limit := some { profileElementName := "pollim" },
      deductible := some { profileElementName := "polded",
                           deductibleType := some "MA" } }
    { tiv := some { profileElementName := "covtiv" },
      limit := some { profileElementName := "covlim" },
      deductible := some { profileElementName := "covded",
                           deductibleType := some "MI" } }
    { profileElementName := "covded", deductibleType := some "MI" }
    (by decide) rfl rfl rfl rfl

/-- C7 amended: at levels other than coverage a resolution whose declared
limit and deductible columns are absent from the canonical row degrades to
the value 0 for both terms without raising; at the coverage level the same
situation raises a KeyError, so the missing-canonical-record error is not
the only fatal condition of the FM derivation. -/
theorem nonCov_missing_column_degrades (canexp : List CanexpRow)
    (g : GroupedTermFields) (st : Option (ℚ × String)) (row : FmRow)
    (can : CanexpRow) (g1 cg : TermGroup) (le de dce : ProfileEntry)
    (h1 : row.fm_level ≠ "coverage")
    (h2 : findCanexp canexp row.canlocid = some can)
    (h3 : g.levelGroup1 row.fm_level = some g1)
    (h4 : g1.limit = some le)
    (h5 : can.getCol le.profileElementName.lower = none)
    (h6 : g1.deductible = some de)
    (h7 : can.getCol de.profileElementName.lower = none)
    (h8 : g.covGroups.lookup 1 = some cg)
    (h9 : cg.deductible = some dce) :
    (processFmRow canexp g st row).map (fun o => (o.2.limit, o.2.deductible)) =
      .ok (some 0, some 0) := by
  unfold processFmRow
  simp only [h2]
  rw [if_neg h1]
  simp only [h3, nonCovDedType, h8, h9, nonCovTermVal, h4, h6, h5, h7]
  norm_num [resolveTerm, Except.map]

/-- C7 amended witness: the concrete policy-level row over a canonical row
lacking both declared columns resolves limit 0 and deductible 0. -/
theorem nonCov_missing_column_degrades_witness :
    (processFmRow w7canexp w7grouped none w7row).map
      (fun o => (o.2.limit, o.2.deductible)) = .ok (some 0, some 0) :=
  nonCov_missing_column_degrades w7canexp w7grouped none w7row
    ⟨9, []⟩
    { limit := some { profileElementName := "pollim" },
      deductible := some { profileElementName := "polded" } }
    { deductible := some { profileElementName := "covded",
                           deductibleType := some "B" } }
    { profileElementName := "pollim" }
    { profileElementName := "polded" }
    { profileElementName := "covded", deductibleType := some "B" }
    (by decide) rfl rfl rfl rfl rfl rfl rfl rfl

/-- C6 counterexample: a policy-level row resolves deductible type MI from
the coverage-level group 1 deductible entry although the policy level's
own deductible entry declares type MA. -/
theorem nonCov_dedtype_from_coverage_counterexample :
    (processFmRow c6canexp c6grouped none c6row).map
      (fun o => o.2.deductibletype) = .ok (some "MI") ∧
    c6policyDedType = some "MA" :=
  ⟨rfl, rfl⟩

/-- C7 counterexample: a coverage-level resolution whose TIV-matched group
declares limit column covlim, absent from the canonical row, raises a
KeyError instead of degrading to 0. -/
theorem coverage_missing_column_raises :
    processFmRow c7canexp c7grouped none c7row = .error (.keyError "covlim") :=
  rfl

/-- C8: on a coverage-level row whose declared term groups all fail the
TIV match, calc-rule selection reads the locals before any assignment: the
first such row raises a NameError, and with locals left over from an
earlier row the rule is computed from those stale values while the row's
own limit and deductible type stay unset. -/
theorem unmatched_coverage_row_reads_unbound_locals :
    processFmRow c8canexp c8grouped none c8row = .error (.nameError "limit_val") ∧
    (processFmRow c8canexp c8grouped (some (7, "MA")) c8row).map
      (fun o => (o.2.calcrule, o.2.limit, o.2.deductibletype)) =
      .ok (some 10, none, none) :=
  ⟨rfl, rfl⟩

/-- C10: generate_fm_files resolves a loader attribute that the manager
class does not define (the defined method is load_fm_master_data_frame),
so the call raises an AttributeError, and each of the five FM file
generator bodies writes no file at all. -/
theorem generate_fm_files_stubbed :
    generate_fm_files_loader = .error "AttributeError" ∧
    "load_fm_exposure_master_data_frame" ∉ oasisExposuresManagerMethods ∧
    "load_fm_master_data_frame" ∈ oasisExposuresManagerMethods ∧
    generate_fm_policytc_file_writes = [] ∧
    generate_fm_profile_file_writes = [] ∧
    generate_fm_programme_file_writes = [] ∧
    generate_fm_xref_file_writes = [] ∧
    generate_fmsummaryxref_file_writes = [] :=
  ⟨by decide, by decide, by decide, rfl, rfl, rfl, rfl, rfl⟩

/-- Count of rows matching a fixed (level, item id) inside the block the
expander produces for one level. -/
theorem presetData_block_countP (lv lv2 : String) (id : ℕ) (items : List Item) :
    (items.map (mkFmRow lv2)).countP (fun r => r.fm_level == lv && r.itemid == id) =
      if lv2 = lv then items.countP (fun it => it.item_id == id) else 0 := by
  rw [List.countP_map]
  by_cases h : lv2 = lv
  · subst h
    rw [if_pos rfl]
    apply List.countP_congr
    intro it _
    simp [Function.comp_apply, mkFmRow]
  · rw [if_neg h]
    have hfalse : (lv2 == lv) = false := beq_eq_false_iff_ne.mpr h
    exact List.countP_eq_zero.mpr
      (fun it _ => by simp [Function.comp_apply, mkFmRow, hfalse])

/-- A level absent from the level list contributes no matching row. -/
theorem presetData_countP_zero (lv : String) (id : ℕ) (items : List Item) :
    ∀ fls : List String, lv ∉ fls →
      (presetData fls items).countP
        (fun r => r.fm_level == lv && r.itemid == id) = 0 := by
  intro fls
  induction fls with
  | nil => intro _; simp [presetData]
  | cons a as ih =>
    intro h
    have ha : a ≠ lv := fun hc => h (hc ▸ List.mem_cons_self a as)
    have has : lv ∉ as := fun hc => h (List.mem_cons_of_mem a hc)
    simp only [presetData, List.flatMap_cons, List.countP_append]
    rw [presetData_block_countP, if_neg ha]
    simp only [presetData] at ih
    rw [ih has]

/-- With distinct level names and distinct item ids, the expander emits
exactly one row per (item, level) pair. -/
theorem presetData_countP_one (lv : String) (id : ℕ) (items : List Item)
    (hid : id ∈ items.map Item.item_id) (hnd : (items.map Item.item_id).Nodup) :
    ∀ fls : List String, fls.Nodup → lv ∈ fls →
      (presetData fls items).countP
        (fun r => r.fm_level == lv && r.itemid == id) = 1 := by
  have hcount : items.countP (fun it => it.item_id == id) = 1 := by
    have h1 : (items.map Item.item_id).count id = 1 :=
      List.count_eq_one_of_mem hnd hid
    rw [List.count, List.countP_map] at h1
    exact h1
  intro fls
  induction fls with
  | nil => intro _ h; cases h
  | cons a as ih =>
    intro hnodup hmem
    simp only [presetData, List.flatMap_cons, List.countP_append]
    rcases List.mem_cons.mp hmem with rfl | hmem2
    · rw [presetData_block_countP, if_pos rfl, hcount]
      have hz := presetData_countP_zero lv id items as
        (List.nodup_cons.mp hnodup).1
      simp only [presetData] at hz
      rw [hz]
    · have ha : a ≠ lv := by
        rintro rfl
        exact (List.nodup_cons.mp hnodup).1 hmem2
      rw [presetData_block_countP, if_neg ha]
      have := ih (List.nodup_cons.mp hnodup).2 hmem2
      simp only [presetData] at this
      rw [this]

/-- Level-major ordering: the row at position i belongs to level number
i / |items| and to item number i mod |items|. -/
theorem presetData_getElem (items : List Item) :
    ∀ (fls : List String) (i : ℕ), i < fls.length * items.length →
      (presetData fls items)[i]? =
        (fls[i / items.length]?).bind
          (fun lv => (items[i % items.length]?).map (mkFmRow lv)) := by
  intro fls
  induction fls with
  | nil => intro i h; simp at h
  | cons a as ih =>
    intro i h
    have hL : 0 < items.length := by
      rcases Nat.eq_zero_or_pos items.length with h0 | h0
      · rw [h0, Nat.mul_zero] at h; omega
      · exact h0
    simp only [presetData, List.flatMap_cons]
    by_cases hi : i < items.length
    · rw [List.getElem?_append, if_pos (by simpa using hi)]
      rw [Nat.div_eq_of_lt hi, Nat.mod_eq_of_lt hi]
      simp [List.getElem?_map]
    · push_neg at hi
      rw [List.getElem?_append_right (by simpa using hi)]
      have hlen : (items.map (mkFmRow a)).length = items.length := by simp
      rw [hlen]
      have h2 : i - items.length < as.length * items.length := by
        have hc : (a :: as).length * items.length =
            as.length * items.length + items.length := by
          simp [List.length_cons, Nat.succ_mul]
        omega
      have hrec := ih (i - items.length) h2
      simp only [presetData] at hrec
      rw [hrec]
      have hdiv : i / items.length = (i - items.length) / items.length + 1 :=
        Nat.div_eq_sub_div hL hi
      have hmod : i % items.length = (i - items.length) % items.length :=
        Nat.mod_eq_sub_mod hi
      rw [hdiv, hmod]
      simp

/-- C5: the level expander emits the product of the profile's levels,
sorted by ascending level order, with the items: the level is the outer
loop (row i carries level i / |items| and item i mod |items|), there is
exactly one row per (item, level) pair, and every emitted row carries the
item's id, location back-reference and TIV with every other field unset. -/
theorem level_expander_product (levels : List (String × Int)) (items : List Item)
    (hlv : (levels.map Prod.fst).Nodup) (hit : (items.map Item.item_id).Nodup) :
    ((levels.mergeSort (fun a b => decide (a.2 ≤ b.2))).map Prod.snd).Pairwise (· ≤ ·) ∧
    (∀ lv ∈ fmLevelsSorted levels, ∀ it ∈ items,
      (presetData (fmLevelsSorted levels) items).countP
        (fun r => r.fm_level == lv && r.itemid == it.item_id) = 1) ∧
    (∀ r ∈ presetData (fmLevelsSorted levels) items,
      r.limit = none ∧ r.deductible = none ∧ r.share = none ∧
      r.deductibletype = none ∧ r.calcrule = none ∧ r.levelid = none ∧
      r.layerid = none ∧ r.aggid = none ∧ r.policytcid = none ∧
      ∃ it ∈ items, r.itemid = it.item_id ∧ r.canlocid = it.canloc_id ∧
        r.tiv = it.tiv) ∧
    (∀ i : ℕ, i < (fmLevelsSorted levels).length * items.length →
      (presetData (fmLevelsSorted levels) items)[i]? =
        ((fmLevelsSorted levels)[i / items.length]?).bind
          (fun lv => (items[i % items.length]?).map (mkFmRow lv))) := by
  refine ⟨?_, ?_, ?_, ?_⟩
  · have hsorted : List.Pairwise
        (fun a b : String × Int => decide (a.2 ≤ b.2) = true)
        (levels.mergeSort (fun a b => decide (a.2 ≤ b.2))) :=
      List.sorted_mergeSort
        (by intro a b c hab hbc
            simp only [decide_eq_true_eq] at *
            omega)
        (by intro a b
            simpa using Int.le_total a.2 b.2)
        levels
    rw [List.pairwise_map]
    exact hsorted.imp (fun h => by simpa using h)
  · intro lv hmemlv it hmemit
    have hsortnd : (fmLevelsSorted levels).Nodup := by
      unfold fmLevelsSorted
      exact (((List.mergeSort_perm levels _).map Prod.fst).nodup_iff).mpr hlv
    exact presetData_countP_one lv it.item_id items
      (List.mem_map_of_mem Item.item_id hmemit) hit
      (fmLevelsSorted levels) hsortnd hmemlv
  · intro r hr
    obtain ⟨lv, hlvmem, hr2⟩ := List.mem_flatMap.mp hr
    obtain ⟨it, hitmem, rfl⟩ := List.mem_map.mp hr2
    exact ⟨rfl, rfl, rfl, rfl, rfl, rfl, rfl, rfl, rfl,
      it, hitmem, rfl, rfl, rfl⟩
  · exact presetData_getElem items (fmLevelsSorted levels)


/-- C5 witness: with one declared level and one item, the expander emits
exactly one row for that pair. -/
theorem level_expander_product_witness :
    (presetData (fmLevelsSorted w5levels) [w5item]).countP
      (fun r => r.fm_level == "coverage" && r.itemid == w5item.item_id) = 1 := by
  have hmem : "coverage" ∈ fmLevelsSorted w5levels :=
    ((List.mergeSort_perm w5levels (fun a b => decide (a.2 ≤ b.2))).map
      Prod.fst).mem_iff.mpr (by decide)
  exact (level_expander_product w5levels [w5item] (by decide) (by decide)).2.1
    "coverage" hmem w5item (by decide)

end Oasis
